import Mathlib

/-!
Shallow embedding of the transaction-time (bitemporal) versioning layer of
the database fork: `src/mongo/db/ttime.{h,cpp}` and the versioned-update
pieces of `src/mongo/db/ops/update.cpp`.

BSON documents are modelled as ordered field lists (`BObj`); BSON values as
the inductive `BVal`.  Arrays are modelled as plain value lists (in BSON an
array is an object with numeric field names "0", "1", ...; none of the code
embedded here looks up a numeric name inside an array, so descending into an
array during a dotted lookup always fails, which the model reflects by
treating arrays as opaque for `getObjectField`).

Timestamps are `(sec, inc)` pairs of naturals (`OpTime` packs two `u32`s
into a `u64`).  The clock (`OpTime::now()`) is passed explicitly as a
`Nat × Nat` argument to the functions that consult it.
-/

/-- A BSON value. `timestamp` is the mongo `Timestamp`/`OpTime` type
(seconds, increment); `date` is a millisecond `Date_t`; `oid` an ObjectId. -/
inductive BVal where
  | null
  | bool (b : Bool)
  | int (n : Int)
  | str (s : String)
  | timestamp (sec inc : Nat)
  | date (ms : Nat)
  | oid (n : Nat)
  | arr (elems : List BVal)
  | obj (fields : List (String × BVal))

/-- A BSON object: an ordered list of named fields. -/
abbrev BObj := List (String × BVal)

namespace BVal

/-- `BSONObj::getField(name)`: the value of the first field with exactly the
given name, or `none` for an `eoo` element. -/
def getField (o : BObj) (name : String) : Option BVal :=
  match o with
  | [] => none
  | (k, v) :: rest => if k = name then some v else getField rest name

/-- `BSONObj::hasElement(name)`: top-level field presence. -/
def hasElement (o : BObj) (name : String) : Bool :=
  (getField o name).isSome

/-- `BSONObj::getObjectField(name)`: the embedded object of the named field,
or the empty object when the field is missing or not an object.  (Upstream
also exposes an array's elements under their numeric names; no embedded code
path looks a non-numeric name up inside an array, so returning the empty
object for arrays is observationally the same here.) -/
def getObjectField (o : BObj) (name : String) : BObj :=
  match getField o name with
  | some (.obj fields) => fields
  | _ => []

/-- `BSONObj::getFieldDotted(name)` for a name without a dot: it degenerates
to `getField`; the returned pair carries the element's field name. -/
def getFieldDottedFlat (o : BObj) (name : String) : Option (String × BVal) :=
  (getField o name).map (fun v => (name, v))

/-- `BSONObj::getFieldDotted(name)` for a two-segment name `seg1.seg2`
(`fullName` being the literal dotted string): upstream first tries the whole
name as a literal field, and only then splits at the dot and descends into
the embedded object of the first segment.  Every dotted lookup in the
embedded code uses a compile-time constant name of exactly two segments, so
the dot-splitting is performed at the call sites. -/
def getFieldDotted2 (o : BObj) (fullName seg1 seg2 : String) : Option (String × BVal) :=
  match getField o fullName with
  | some v => some (fullName, v)
  | none => (getField (getObjectField o seg1) seg2).map (fun v => (seg2, v))

/-- `BSONObjBuilder::appendElementsUnique(x)`: append the fields of `x`
whose names do not already occur among the builder's contents `b`.  (The
upstream implementation snapshots the builder's names first, so duplicates
inside `x` are filtered only against `b`.) -/
def appendElementsUnique (b x : BObj) : BObj :=
  b ++ x.filter (fun kv => (getField b kv.1).isNone)

/-- `BSONObj::removeField(name)`: drop every field with the given name. -/
def removeField (o : BObj) (name : String) : BObj :=
  match o with
  | [] => []
  | (k, v) :: rest =>
      if k = name then removeField rest name
      else (k, v) :: removeField rest name

/-- `BSONElement::isNull()`: the element's type is jstNULL.  (On an `eoo`
element — `none` in this model — the callers test `eoo` separately.) -/
def isNull : BVal → Bool
  | .null => true
  | _ => false

/-- `e.isBoolean() && e.trueValue()` as used on the `current` / `all`
operands: the element is of Bool type and holds `true`. -/
def isTrueBool : BVal → Bool
  | .bool b => b
  | _ => false

/-- `BSONElement::isNumber()`: NumberDouble/NumberInt/NumberLong.  The model
collapses the numeric BSON types into `int`. -/
def isNumber : BVal → Bool
  | .int _ => true
  | _ => false

/-- `BSONElement::number()` on the numeric values of the model. -/
def number : BVal → Int
  | .int n => n
  | _ => 0

/-- Replace the value of the first field with the given name, keeping its
position; identity when the field is absent.  (Field-surgery primitive used
to model the fork's in-place element manipulation.) -/
def setFieldValueFirst (o : BObj) (name : String) (v : BVal) : BObj :=
  match o with
  | [] => []
  | (k, w) :: rest =>
      if k = name then (k, v) :: rest
      else (k, w) :: setFieldValueFirst rest name v

end BVal

/-- Result of a fallible operation: a produced object, or a `uassert` /
`massert` failure carrying its numeric error code. -/
inductive TRes where
  | ok (o : BObj)
  | err (code : Nat)

/-- Whether a `TRes` is an error. -/
def TRes.isErr : TRes → Bool
  | .ok _ => false
  | .err _ => true

open BVal

/-- `BSONObjBuilder::appendTimestamp(name, millis, inc)`: stores
`OpTime((unsigned)(millis / 1000), inc)` — seconds are the millisecond value
divided by 1000, truncated to `u32`. -/
def appendTimestampValue (ms : Nat) (inc : Nat) : BVal :=
  .timestamp ((ms / 1000) % 2 ^ 32) inc

/-- `wrapObjectId(obj, val, inc)` from ttime.cpp: wrap the `_id` field of an
object into a composite transaction-time `_id`.  If the object already has
`_id.transaction_start` it is returned unchanged.  Otherwise the original
`_id` (or a freshly generated ObjectId, modelled by the explicit `freshOid`
argument) is moved into `{_id: ..., transaction_start: Timestamp(val, inc)}`,
`transaction_end: null` is appended, and the remaining fields are copied with
`appendElementsUnique`.  The final `BSONElementManipulator::initTimestamp()`
stamps `OpTime::now()` (the explicit `now` argument) when and only when the
stored 64-bit timestamp is zero; the model applies that substitution where
the element is built. -/
def wrapObjectId (now : Nat × Nat) (freshOid : Nat) (obj : BObj) (val : Nat)
    (inc : Nat) : BObj :=
  if (getFieldDotted2 obj "_id.transaction_start" "_id" "transaction_start").isSome then obj
  else
    let idField : String × BVal :=
      match getField obj "_id" with
      | none => ("_id", .oid freshOid)
      | some v => ("_id", v)
    let startTs : BVal :=
      match appendTimestampValue val inc with
      | .timestamp 0 0 => .timestamp now.1 now.2
      | t => t
    appendElementsUnique
      [("_id", .obj [idField, ("transaction_start", startTs)]),
       ("transaction_end", .null)] obj

/-- `addCurrentVersionCriterion(pattern)` from ttime.cpp: refuse
(uassert 999145) when the pattern pins `transaction_end` to a non-null
value; otherwise prepend `transaction_end: null` and copy the pattern's
other fields. -/
def addCurrentVersionCriterion (pattern : BObj) : TRes :=
  match getField pattern "transaction_end" with
  | some v =>
      if v.isNull then .ok (appendElementsUnique [("transaction_end", .null)] pattern)
      else .err 999145
  | none => .ok (appendElementsUnique [("transaction_end", .null)] pattern)

/-- Modelled from the spec: `BSONObj::replaceTimestamp` is a fork addition
whose bsonobj source is not under src/.  Per the spec of `close` ("produces
the same document with `transaction_end` set to the clock's current value"),
it swaps the named field's value for a zero placeholder timestamp which
`BSONElementManipulator::initTimestamp` then stamps with `OpTime::now()`. -/
def replaceTimestamp (o : BObj) (name : String) : BObj :=
  setFieldValueFirst o name (.timestamp 0 0)

/-- `BSONElementManipulator::initTimestamp()` applied to the first field of
the given name: when the stored 64-bit timestamp is zero it is set to
`OpTime::now()` (the explicit `now`), otherwise the object is unchanged. -/
def initTimestampField (now : Nat × Nat) (o : BObj) (name : String) : BObj :=
  match getField o name with
  | some (.timestamp 0 0) => setFieldValueFirst o name (.timestamp now.1 now.2)
  | _ => o

/-- `setTransactionEndTimestamp(obj)` from ttime.cpp (the spec's `close`):
uassert 999146 when `transaction_end` is absent, uassert 999147 when it is
non-null; otherwise replace its value with the clock's current timestamp. -/
def setTransactionEndTimestamp (now : Nat × Nat) (obj : BObj) : TRes :=
  match getField obj "transaction_end" with
  | none => .err 999146
  | some v =>
      if v.isNull then
        .ok (initTimestampField now (replaceTimestamp obj "transaction_end") "transaction_end")
      else .err 999147

/-- `setTransactionStartTimestamp(newObj, prevObj)` from ttime.cpp (the
spec's `succeed`): require `prevObj.transaction_end` to exist (uassert
999148) and be a Timestamp (uassert 999149); then build
`{_id: prevObj._id._id} ⊕ newObj` and wrap it with
`start = Timestamp(prevObj.transaction_end)`.
`BSONElement::timestampTime()` is `Date_t(sec * 1000)`, modelled as the
multiplication; `BSONObjBuilder::append` of an `eoo` element (a predecessor
without `_id._id`) trips the builder's `verify`, modelled as error code 0. -/
def setTransactionStartTimestamp (now : Nat × Nat) (freshOid : Nat)
    (newObj prevObj : BObj) : TRes :=
  match getFieldDottedFlat prevObj "transaction_end" with
  | none => .err 999148
  | some (_, .timestamp s i) =>
      match getFieldDotted2 prevObj "_id._id" "_id" "_id" with
      | none => .err 0
      | some (idName, idVal) =>
          .ok (wrapObjectId now freshOid
            (appendElementsUnique [(idName, idVal)] newObj) (s * 1000) i)
  | some _ => .err 999149

/-- `addFromCondition(bb, from)` from ttime.cpp: when the from-bound is not
null, emit `$or: [{transaction_end: null}, {transaction_end: {$gte: from}}]`. -/
def addFromCondition (fromElem : BVal) : BObj :=
  if fromElem.isNull then []
  else
    [("$or", .arr
      [ .obj [("transaction_end", .null)],
        .obj [("transaction_end", .obj [("$gte", fromElem)])] ])]

/-- `addToCondition(bb, to)` from ttime.cpp: when the to-bound is not null,
emit `"_id.transaction_start": {$lte: to}`. -/
def addToCondition (toElem : BVal) : BObj :=
  if toElem.isNull then []
  else [("_id.transaction_start", .obj [("$lte", toElem)])]

/-- `addTemporalCriteria(query)` from ttime.cpp: dispatch on the
`transaction` operator — absent, `current`, `inrange`, `all`, `at`, or a
malformed-query error (uassert/massert codes as in the source). -/
def addTemporalCriteria (query : BObj) : TRes :=
  if hasElement query "transaction" = false then
    addCurrentVersionCriterion query
  else
    match getFieldDotted2 query "transaction.current" "transaction" "current" with
    | some (_, cur) =>
        if cur.isTrueBool then
          match addCurrentVersionCriterion query with
          | .ok q2 => .ok (removeField q2 "transaction")
          | .err c => .err c
        else .err 999150
    | none =>
      match getFieldDotted2 query "transaction.inrange" "transaction" "inrange" with
      | some (_, v) =>
          match v with
          | .arr [fst, snd] =>
              if fst.isNull && snd.isNull then .err 1234002
              else
                .ok (removeField
                  (appendElementsUnique (addFromCondition fst ++ addToCondition snd) query)
                  "transaction")
          | .arr _ => .err 1234001
          | _ => .err 1234000
      | none =>
        match getFieldDotted2 query "transaction.all" "transaction" "all" with
        | some (_, a) =>
            if a.isTrueBool then .ok (removeField query "transaction") else .err 999151
        | none =>
          match getFieldDotted2 query "transaction.at" "transaction" "at" with
          | some (_, t) =>
              .ok (removeField
                (appendElementsUnique (addFromCondition t ++ addToCondition t) query)
                "transaction")
          | none => .err 999152

/-- Modelled from the spec: `BSONObj::renameField` is a fork addition whose
bsonobj source is not under src/.  Per the spec ("replaces a sort key named
`transaction` with `transaction_end`, preserving the direction; all other
sort keys pass through unchanged"), each field of the old name is renamed in
place, keeping its position and value. -/
def renameField (o : BObj) (oldName newName : String) : BObj :=
  match o with
  | [] => []
  | (k, v) :: rest =>
      if k = oldName then (newName, v) :: renameField rest oldName newName
      else (k, v) :: renameField rest oldName newName

/-- `addTemporalOrder(order)` from ttime.cpp: replace a `transaction` sort
key by `transaction_end`; identity when no such key exists. -/
def addTemporalOrder (order : BObj) : BObj :=
  match getField order "transaction" with
  | none => order
  | some _ => renameField order "transaction" "transaction_end"

/-- `curTimeMillis64() - 1000 * expireField` on unsigned 64-bit arithmetic. -/
def ttlDateBound (nowMs expireField : Nat) : Nat :=
  (((nowMs : Int) - 1000 * (expireField : Int)) % (2 ^ 64 : Int)).toNat

/-- `1000 * (time(0) - expireField)` converted to unsigned 64-bit at the
`appendTimestamp` call. -/
def ttlTimestampMs (nowSec expireField : Nat) : Nat :=
  ((1000 * ((nowSec : Int) - (expireField : Int))) % (2 ^ 64 : Int)).toNat

/-- `getTTLQuery(fieldName, expireField)` from ttime.cpp.  Source note: the
second field subobject is opened as `date.subobjStart(fieldName)` after
`date.done()`; all sub-builders write into one shared linear buffer and
`subobjStart` appends the field header at the buffer's current end — which
at that point is inside the open `timestamp` subobject — so the emitted
bytes are exactly those of `timestamp.subobjStart(fieldName)`.  The clock
reads `curTimeMillis64()` (ms) and `time(0)` (s) are explicit arguments. -/
def getTTLQuery (fieldName : String) (nowMs nowSec : Nat) (expireField : Nat) : BObj :=
  [("$or", .arr
    [ .obj [(fieldName, .obj [("$lt", .date (ttlDateBound nowMs expireField))])],
      .obj [(fieldName, .obj
        [("$tlt", appendTimestampValue (ttlTimestampMs nowSec expireField) 0)])] ])]

/-- Modelled from the spec: `BSONObj::replaceField` is a fork addition whose
bsonobj source is not under src/: replace the named field's value in place;
identity when the field is absent. -/
def replaceField (o : BObj) (name : String) (v : BVal) : BObj :=
  setFieldValueFirst o name v

/-- `modifyTransactionTimeIndex(idx)` from ttime.cpp: rewrite the `key`
mapping of an index spec — unchanged if it already has `transaction_end`;
`transaction_end: 1` prepended when no `transaction` entry exists; uassert
999423 when `transaction` is not a number; `transaction: 0` removes the
entry; any other number renames `transaction` to `transaction_end`. -/
def modifyTransactionTimeIndex (idx : BObj) : TRes :=
  let key := getObjectField idx "key"
  if (getField key "transaction_end").isSome then .ok idx
  else
    match getField key "transaction" with
    | none => .ok (replaceField idx "key" (.obj (("transaction_end", .int 1) :: key)))
    | some tv =>
        if tv.isNumber = false then .err 999423
        else if tv.number = 0 then
          .ok (replaceField idx "key" (.obj (removeField key "transaction")))
        else
          .ok (replaceField idx "key" (.obj (renameField key "transaction" "transaction_end")))

/-! ### Field-lookup lemmas -/

theorem getField_append_none {b : BObj} {k : String} (h : getField b k = none)
    (l : BObj) : getField (b ++ l) k = getField l k := by
  induction b with
  | nil => simp
  | cons kv rest ih =>
      obtain ⟨k', v⟩ := kv
      by_cases hk : k' = k
      · simp [getField, hk] at h
      · rw [List.cons_append]
        rw [getField] at h ⊢
        simp only [hk, if_false] at h ⊢
        exact ih h

theorem getField_filter_of_name {x : BObj} {p : String × BVal → Bool} {k : String}
    (hp : ∀ v, p (k, v) = true) : getField (x.filter p) k = getField x k := by
  induction x with
  | nil => rfl
  | cons kv rest ih =>
      obtain ⟨k', v⟩ := kv
      by_cases hk : k' = k
      · subst hk
        simp [List.filter_cons, hp v, getField]
      · by_cases hpkv : p (k', v) = true
        · simp [List.filter_cons, hpkv, getField, hk, ih]
        · simp only [Bool.not_eq_true] at hpkv
          simp [List.filter_cons, hpkv, getField, hk, ih]

theorem getField_filter_none {x : BObj} {p : String × BVal → Bool} {k : String}
    (h : getField x k = none) : getField (x.filter p) k = none := by
  induction x with
  | nil => rfl
  | cons kv rest ih =>
      obtain ⟨k', v⟩ := kv
      by_cases hk : k' = k
      · simp [getField, hk] at h
      · by_cases hpkv : p (k', v) = true
        · simp only [getField, hk, if_false] at h
          simp [List.filter_cons, hpkv, getField, hk, ih h]
        · simp only [Bool.not_eq_true] at hpkv
          simp only [getField, hk, if_false] at h
          simp [List.filter_cons, hpkv, ih h]

theorem getField_removeField_self (o : BObj) (n : String) :
    getField (removeField o n) n = none := by
  induction o with
  | nil => rfl
  | cons kv rest ih =>
      obtain ⟨k, v⟩ := kv
      have hstep : getField (removeField ((k, v) :: rest) n) n
          = getField (removeField rest n) n := by
        by_cases hk : k = n
        · simp [removeField, hk]
        · simp [removeField, hk, getField]
      rw [hstep]
      exact ih

theorem getField_removeField_ne {m n : String} (o : BObj) (h : m ≠ n) :
    getField (removeField o n) m = getField o m := by
  induction o with
  | nil => rfl
  | cons kv rest ih =>
      obtain ⟨k, v⟩ := kv
      by_cases hk : k = n
      · subst hk
        have hne : ¬(k = m) := fun hkk => h hkk.symm
        simp [removeField, getField, hne, ih]
      · by_cases hk2 : k = m
        · simp [removeField, hk, getField, hk2, h]
        · simp [removeField, hk, getField, hk2, ih]

theorem getField_setFieldValueFirst_self {o : BObj} {n : String} {w : BVal}
    (h : getField o n = some w) (v : BVal) :
    getField (setFieldValueFirst o n v) n = some v := by
  induction o with
  | nil => simp [getField] at h
  | cons kv rest ih =>
      obtain ⟨k, w'⟩ := kv
      by_cases hk : k = n
      · simp [setFieldValueFirst, hk, getField]
      · simp only [getField, hk, if_false] at h
        simp [setFieldValueFirst, hk, getField, ih h]

theorem getField_setFieldValueFirst_ne {k n : String} (o : BObj) (v : BVal)
    (h : k ≠ n) : getField (setFieldValueFirst o n v) k = getField o k := by
  induction o with
  | nil => rfl
  | cons kv rest ih =>
      obtain ⟨k', w⟩ := kv
      by_cases hk : k' = n
      · subst hk
        have hne : ¬(k' = k) := fun hkk => h hkk.symm
        simp [setFieldValueFirst, getField, hne]
      · simp only [setFieldValueFirst, if_neg hk]
        by_cases hk2 : k' = k
        · simp [getField, hk2]
        · simp [getField, hk2, ih]

theorem setFieldValueFirst_comp (o : BObj) (n : String) (a b : BVal) :
    setFieldValueFirst (setFieldValueFirst o n a) n b = setFieldValueFirst o n b := by
  induction o with
  | nil => rfl
  | cons kv rest ih =>
      obtain ⟨k, w⟩ := kv
      by_cases hk : k = n
      · simp [setFieldValueFirst, hk]
      · simp [setFieldValueFirst, hk, ih]

theorem getField_renameField_old {oldN newN : String} (o : BObj) (h : newN ≠ oldN) :
    getField (renameField o oldN newN) oldN = none := by
  induction o with
  | nil => rfl
  | cons kv rest ih =>
      obtain ⟨k, v⟩ := kv
      have hstep : getField (renameField ((k, v) :: rest) oldN newN) oldN
          = getField (renameField rest oldN newN) oldN := by
        by_cases hk : k = oldN
        · simp [renameField, hk, getField, h]
        · simp [renameField, hk, getField, hk]
      rw [hstep]
      exact ih

theorem isNull_iff (v : BVal) : v.isNull = true ↔ v = .null := by
  cases v <;> simp [BVal.isNull]

theorem getField_prependNull (p : BObj) :
    getField (appendElementsUnique [("transaction_end", BVal.null)] p) "transaction_end"
      = some BVal.null := by
  simp [appendElementsUnique, getField]

/-! ### C9 — `addTemporalOrder` -/

/-- C9: `addTemporalOrder` maps a sort spec containing a `transaction` key
to the same spec with that key renamed in place to `transaction_end`
(direction value and all other keys unchanged); a spec without a
`transaction` key is returned unchanged; and `addTemporalOrder` composed
with itself equals `addTemporalOrder` on every sort spec. -/
theorem addTemporalOrder_spec (o : BObj) :
    ((getField o "transaction").isSome →
      addTemporalOrder o = renameField o "transaction" "transaction_end") ∧
    (getField o "transaction" = none → addTemporalOrder o = o) ∧
    addTemporalOrder (addTemporalOrder o) = addTemporalOrder o := by
  refine ⟨?_, ?_, ?_⟩
  · intro h
    rcases hg : getField o "transaction" with _ | v
    · rw [hg] at h
      simp at h
    · simp [addTemporalOrder, hg]
  · intro h
    simp [addTemporalOrder, h]
  · rcases hg : getField o "transaction" with _ | v
    · simp [addTemporalOrder, hg]
    · have h2 : getField (renameField o "transaction" "transaction_end") "transaction" = none :=
        getField_renameField_old o (by decide)
      simp [addTemporalOrder, hg, h2]

/-- Witness for C9 at a concrete sort spec. -/
theorem addTemporalOrder_spec_witness :
    addTemporalOrder [("transaction", BVal.int (-1)), ("b", BVal.int 1)]
      = renameField [("transaction", BVal.int (-1)), ("b", BVal.int 1)]
          "transaction" "transaction_end" :=
  (addTemporalOrder_spec _).1 (by rfl)

/-! ### C2 — `addCurrentVersionCriterion` -/

/-- C2: `addCurrentVersionCriterion` raises an error (999145, refusing the
write) iff the selector has a `transaction_end` field whose value is neither
absent nor null; when it succeeds the returned selector contains
`transaction_end: null`. -/
theorem addCurrentVersionCriterion_spec (p : BObj) :
    ((∃ c, addCurrentVersionCriterion p = .err c) ↔
      (∃ v, getField p "transaction_end" = some v ∧ v.isNull = false)) ∧
    (∀ r, addCurrentVersionCriterion p = .ok r →
      getField r "transaction_end" = some BVal.null) ∧
    (∀ c, addCurrentVersionCriterion p = .err c → c = 999145) := by
  rcases hg : getField p "transaction_end" with _ | v
  · refine ⟨⟨?_, ?_⟩, ?_, ?_⟩
    · rintro ⟨c, hc⟩
      simp [addCurrentVersionCriterion, hg] at hc
    · rintro ⟨v, hv, _⟩
      exact absurd hv (by simp)
    · intro r hr
      simp only [addCurrentVersionCriterion, hg] at hr
      injection hr with hr
      rw [← hr]
      exact getField_prependNull p
    · intro c hc
      simp [addCurrentVersionCriterion, hg] at hc
  · by_cases hv : v.isNull = true
    · refine ⟨⟨?_, ?_⟩, ?_, ?_⟩
      · rintro ⟨c, hc⟩
        simp [addCurrentVersionCriterion, hg, hv] at hc
      · rintro ⟨w, hw, hwn⟩
        injection hw with hw
        rw [← hw] at hwn
        rw [hv] at hwn
        exact absurd hwn (by simp)
      · intro r hr
        simp only [addCurrentVersionCriterion, hg, hv, if_true] at hr
        injection hr with hr
        rw [← hr]
        exact getField_prependNull p
      · intro c hc
        simp [addCurrentVersionCriterion, hg, hv] at hc
    · simp only [Bool.not_eq_true] at hv
      refine ⟨⟨?_, ?_⟩, ?_, ?_⟩
      · intro _
        exact ⟨v, rfl, hv⟩
      · intro _
        exact ⟨999145, by simp [addCurrentVersionCriterion, hg, hv]⟩
      · intro r hr
        simp [addCurrentVersionCriterion, hg, hv] at hr
      · intro c hc
        simp only [addCurrentVersionCriterion, hg, hv, if_false] at hc
        injection hc with hc
        exact hc.symm

/-- Witness for C2: a selector pinning `transaction_end` to a non-null value
is refused; one without it gets `transaction_end: null` prepended. -/
theorem addCurrentVersionCriterion_spec_witness :
    (∃ v, getField [("transaction_end", BVal.int 3)] "transaction_end" = some v ∧
      BVal.isNull v = false) ∧
    getField (appendElementsUnique [("transaction_end", BVal.null)] [("a", BVal.int 1)])
      "transaction_end" = some BVal.null :=
  ⟨(addCurrentVersionCriterion_spec _).1.mp ⟨999145, rfl⟩,
   (addCurrentVersionCriterion_spec [("a", BVal.int 1)]).2.1 _ rfl⟩

/-! ### C3 — `setTransactionEndTimestamp` (`close`) -/

/-- C3: `close` fails exactly when `transaction_end` is absent (999146) or
non-null (999147); when `transaction_end` exists and is null it returns the
same document with only `transaction_end` changed — set to the clock's
current timestamp — and every other field unchanged. -/
theorem setTransactionEndTimestamp_spec (now : Nat × Nat) (obj : BObj) :
    ((setTransactionEndTimestamp now obj).isErr = true ↔
      (getField obj "transaction_end" = none ∨
        ∃ v, getField obj "transaction_end" = some v ∧ v.isNull = false)) ∧
    (getField obj "transaction_end" = some BVal.null →
      setTransactionEndTimestamp now obj =
        .ok (setFieldValueFirst obj "transaction_end" (.timestamp now.1 now.2)) ∧
      getField (setFieldValueFirst obj "transaction_end" (.timestamp now.1 now.2))
        "transaction_end" = some (.timestamp now.1 now.2) ∧
      (∀ k, k ≠ "transaction_end" →
        getField (setFieldValueFirst obj "transaction_end" (.timestamp now.1 now.2)) k
          = getField obj k)) := by
  constructor
  · rcases hg : getField obj "transaction_end" with _ | v
    · simp [setTransactionEndTimestamp, hg, TRes.isErr]
    · by_cases hv : v.isNull = true
      · have hvn : v = BVal.null := (isNull_iff v).mp hv
        subst hvn
        simp [setTransactionEndTimestamp, hg, TRes.isErr, BVal.isNull]
      · simp only [Bool.not_eq_true] at hv
        simp only [setTransactionEndTimestamp, hg, hv, if_false, TRes.isErr]
        constructor
        · intro _
          exact Or.inr ⟨v, rfl, hv⟩
        · intro _
          rfl
  · intro hnull
    have h1 : getField (setFieldValueFirst obj "transaction_end" (BVal.timestamp 0 0))
        "transaction_end" = some (BVal.timestamp 0 0) :=
      getField_setFieldValueFirst_self hnull _
    refine ⟨?_, getField_setFieldValueFirst_self hnull _,
      fun k hk => getField_setFieldValueFirst_ne obj _ hk⟩
    simp [setTransactionEndTimestamp, hnull, BVal.isNull, replaceTimestamp,
      initTimestampField, h1, setFieldValueFirst_comp]

/-- Witness for C3 at a concrete current-version document and clock. -/
theorem setTransactionEndTimestamp_spec_witness :
    setTransactionEndTimestamp (9, 2) [("u", BVal.int 7), ("transaction_end", BVal.null)] =
      .ok (setFieldValueFirst [("u", BVal.int 7), ("transaction_end", BVal.null)]
        "transaction_end" (BVal.timestamp 9 2)) :=
  ((setTransactionEndTimestamp_spec (9, 2)
    [("u", BVal.int 7), ("transaction_end", BVal.null)]).2 (by rfl)).1

/-! ### C10 — `modifyTransactionTimeIndex` error case -/

/-- C10: when the key mapping has no `transaction_end` entry but has a
`transaction` entry whose value is not a number,
`modifyTransactionTimeIndex` raises uassert 999423 ("parameter of
transaction must be a number") instead of returning a spec. -/
theorem modifyTransactionTimeIndex_nonNumber (idx : BObj) (v : BVal)
    (h1 : getField (getObjectField idx "key") "transaction_end" = none)
    (h2 : getField (getObjectField idx "key") "transaction" = some v)
    (h3 : v.isNumber = false) :
    modifyTransactionTimeIndex idx = .err 999423 := by
  simp [modifyTransactionTimeIndex, h1, h2, h3]

/-- Witness for C10: a string-valued `transaction` key entry is refused. -/
theorem modifyTransactionTimeIndex_nonNumber_witness :
    modifyTransactionTimeIndex [("key", BVal.obj [("transaction", BVal.str "x")])]
      = .err 999423 :=
  modifyTransactionTimeIndex_nonNumber
    [("key", BVal.obj [("transaction", BVal.str "x")])] (BVal.str "x") rfl rfl rfl

/-! ### C4 — `modifyTransactionTimeIndex` key rewriting -/

/-- C4 counterexample: on the index spec `{key: {a: 1, transaction: 1}}` the
result's key is `{a: 1, transaction_end: 1}` — its first entry is `a`, not
`transaction_end` — yet the input key's `transaction` entry is `1`, not the
claimed `transaction: 0` opt-out. -/
theorem modifyTransactionTimeIndex_c4_counterexample :
    modifyTransactionTimeIndex
        [("key", BVal.obj [("a", BVal.int 1), ("transaction", BVal.int 1)])] =
      .ok [("key", BVal.obj [("a", BVal.int 1), ("transaction_end", BVal.int 1)])] ∧
    getField (getObjectField
        [("key", BVal.obj [("a", BVal.int 1), ("transaction", BVal.int 1)])] "key")
      "transaction" = some (BVal.int 1) ∧
    ((getObjectField
        [("key", BVal.obj [("a", BVal.int 1), ("transaction_end", BVal.int 1)])] "key").head?).map
      Prod.fst ≠ some "transaction_end" := by
  refine ⟨rfl, rfl, ?_⟩
  intro h
  simp [getObjectField, getField] at h

/-- C4 (amended): `modifyTransactionTimeIndex` keeps a spec whose key
already has `transaction_end` unchanged; when the key has neither
`transaction_end` nor `transaction`, it prepends `transaction_end: 1`
(which is then the first key entry); a non-numeric `transaction` raises
999423; `transaction: 0` is removed with no `transaction_end` added; a
nonzero numeric `transaction` is renamed to `transaction_end` in place. -/
theorem modifyTransactionTimeIndex_spec (idx : BObj) (k : BObj)
    (hk : getField idx "key" = some (BVal.obj k)) :
    ((getField k "transaction_end").isSome → modifyTransactionTimeIndex idx = .ok idx) ∧
    (getField k "transaction_end" = none → getField k "transaction" = none →
      modifyTransactionTimeIndex idx =
        .ok (replaceField idx "key" (.obj (("transaction_end", .int 1) :: k))) ∧
      (getObjectField (replaceField idx "key" (.obj (("transaction_end", .int 1) :: k)))
          "key").head? = some ("transaction_end", .int 1)) ∧
    (∀ v, getField k "transaction_end" = none → getField k "transaction" = some v →
      v.isNumber = false → modifyTransactionTimeIndex idx = .err 999423) ∧
    (getField k "transaction_end" = none → getField k "transaction" = some (BVal.int 0) →
      modifyTransactionTimeIndex idx =
        .ok (replaceField idx "key" (.obj (removeField k "transaction"))) ∧
      getField (removeField k "transaction") "transaction" = none ∧
      getField (removeField k "transaction") "transaction_end" = none) ∧
    (∀ n : Int, n ≠ 0 → getField k "transaction_end" = none →
      getField k "transaction" = some (BVal.int n) →
      modifyTransactionTimeIndex idx =
        .ok (replaceField idx "key" (.obj (renameField k "transaction" "transaction_end")))) := by
  have hko : getObjectField idx "key" = k := by
    simp [getObjectField, hk]
  refine ⟨?_, ?_, ?_, ?_, ?_⟩
  · intro hs
    rcases he : getField k "transaction_end" with _ | w
    · rw [he] at hs
      simp at hs
    · simp [modifyTransactionTimeIndex, hko, he]
  · intro he ht
    constructor
    · simp [modifyTransactionTimeIndex, hko, he, ht]
    · have hrk : getField (replaceField idx "key" (.obj (("transaction_end", .int 1) :: k)))
          "key" = some (BVal.obj (("transaction_end", .int 1) :: k)) :=
        getField_setFieldValueFirst_self hk _
      simp [getObjectField, hrk]
  · intro v he ht hnum
    simp [modifyTransactionTimeIndex, hko, he, ht, hnum]
  · intro he ht
    refine ⟨?_, getField_removeField_self k "transaction",
      by rw [getField_removeField_ne k (by decide)]; exact he⟩
    simp [modifyTransactionTimeIndex, hko, he, ht, BVal.isNumber, BVal.number]
  · intro n hn he ht
    simp [modifyTransactionTimeIndex, hko, he, ht, BVal.isNumber, BVal.number, hn]

/-- Witness for C4 (amended) at a key with neither `transaction_end` nor
`transaction`: `transaction_end: 1` is prepended and becomes the first
entry. -/
theorem modifyTransactionTimeIndex_spec_witness :
    modifyTransactionTimeIndex [("key", BVal.obj [("a", BVal.int 1)])] =
      .ok (replaceField [("key", BVal.obj [("a", BVal.int 1)])] "key"
        (BVal.obj [("transaction_end", BVal.int 1), ("a", BVal.int 1)])) :=
  ((modifyTransactionTimeIndex_spec [("key", BVal.obj [("a", BVal.int 1)])]
    [("a", BVal.int 1)] rfl).2.1 rfl rfl).1

/-! ### C6 — no `transaction` key in any rewritten selector -/

theorem getField_appendElementsUnique_none {b x : BObj} {n : String}
    (hb : getField b n = none) (hx : getField x n = none) :
    getField (appendElementsUnique b x) n = none := by
  unfold appendElementsUnique
  rw [getField_append_none hb]
  exact getField_filter_none hx

/-- C6: every selector returned by `addTemporalCriteria` has no top-level
`transaction` key, in each branch (absent, current, inrange, all, at); and a
query whose `transaction` value matches no recognised subform raises the
malformed-query error 999152 instead of returning a selector. -/
theorem addTemporalCriteria_no_transaction_key (q r : BObj) :
    (addTemporalCriteria q = .ok r → getField r "transaction" = none) ∧
    (hasElement q "transaction" = true →
      getFieldDotted2 q "transaction.current" "transaction" "current" = none →
      getFieldDotted2 q "transaction.inrange" "transaction" "inrange" = none →
      getFieldDotted2 q "transaction.all" "transaction" "all" = none →
      getFieldDotted2 q "transaction.at" "transaction" "at" = none →
      addTemporalCriteria q = .err 999152) := by
  constructor
  · intro hok
    by_cases h0 : hasElement q "transaction" = false
    · have hq : getField q "transaction" = none := by
        rcases hg : getField q "transaction" with _ | v
        · rfl
        · rw [hasElement, hg] at h0
          simp at h0
      rw [addTemporalCriteria, if_pos h0] at hok
      rcases hg : getField q "transaction_end" with _ | v
      · rw [addCurrentVersionCriterion, hg] at hok
        injection hok with hok
        rw [← hok]
        exact getField_appendElementsUnique_none rfl hq
      · simp only [addCurrentVersionCriterion, hg] at hok
        by_cases hv : v.isNull = true
        · rw [if_pos hv] at hok
          injection hok with hok
          rw [← hok]
          exact getField_appendElementsUnique_none rfl hq
        · rw [if_neg hv] at hok
          exact TRes.noConfusion hok
    · have h0' : hasElement q "transaction" = true := by
        rcases hb : hasElement q "transaction" with _ | _
        · exact absurd hb h0
        · rfl
      rcases hc : getFieldDotted2 q "transaction.current" "transaction" "current"
        with _ | p
      · rcases hi : getFieldDotted2 q "transaction.inrange" "transaction" "inrange"
          with _ | p
        · rcases hall : getFieldDotted2 q "transaction.all" "transaction" "all"
            with _ | p
          · rcases hat : getFieldDotted2 q "transaction.at" "transaction" "at"
              with _ | p
            · simp [addTemporalCriteria, h0', hc, hi, hall, hat] at hok
            · obtain ⟨nm, tv⟩ := p
              simp [addTemporalCriteria, h0', hc, hi, hall, hat] at hok
              subst hok
              exact getField_removeField_self _ _
          · obtain ⟨nm, av⟩ := p
            by_cases hav : av.isTrueBool = true
            · simp [addTemporalCriteria, h0', hc, hi, hall, hav] at hok
              subst hok
              exact getField_removeField_self _ _
            · simp [addTemporalCriteria, h0', hc, hi, hall, hav] at hok
        · obtain ⟨nm, v⟩ := p
          rcases v with _ | b' | n' | s' | ⟨ts1, ts2⟩ | d' | o' | elems | flds
          · simp [addTemporalCriteria, h0', hc, hi] at hok
          · simp [addTemporalCriteria, h0', hc, hi] at hok
          · simp [addTemporalCriteria, h0', hc, hi] at hok
          · simp [addTemporalCriteria, h0', hc, hi] at hok
          · simp [addTemporalCriteria, h0', hc, hi] at hok
          · simp [addTemporalCriteria, h0', hc, hi] at hok
          · simp [addTemporalCriteria, h0', hc, hi] at hok
          · rcases elems with _ | ⟨a, rest⟩
            · simp [addTemporalCriteria, h0', hc, hi] at hok
            · rcases rest with _ | ⟨b, rest2⟩
              · simp [addTemporalCriteria, h0', hc, hi] at hok
              · rcases rest2 with _ | ⟨c, rest3⟩
                · by_cases hn : (a.isNull && b.isNull) = true
                  · simp [addTemporalCriteria, h0', hc, hi, hn] at hok
                  · simp [addTemporalCriteria, h0', hc, hi, hn] at hok
                    subst hok
                    exact getField_removeField_self _ _
                · simp [addTemporalCriteria, h0', hc, hi] at hok
          · simp [addTemporalCriteria, h0', hc, hi] at hok
      · obtain ⟨nm, cur⟩ := p
        by_cases hcur : cur.isTrueBool = true
        · rcases ha : addCurrentVersionCriterion q with q2 | c
          · simp [addTemporalCriteria, h0', hc, hcur, ha] at hok
            subst hok
            exact getField_removeField_self _ _
          · simp [addTemporalCriteria, h0', hc, hcur, ha] at hok
        · simp [addTemporalCriteria, h0', hc, hcur] at hok
  · intro h1 h2 h3 h4 h5
    simp [addTemporalCriteria, h1, h2, h3, h4, h5]

/-- Witness for C6 at a concrete query in the `all` branch, plus the
malformed-query error on an unrecognised subform. -/
theorem addTemporalCriteria_no_transaction_key_witness :
    getField (removeField [("transaction", BVal.obj [("all", BVal.bool true)]),
      ("a", BVal.int 2)] "transaction") "transaction" = none ∧
    addTemporalCriteria [("transaction", BVal.int 9)] = .err 999152 :=
  ⟨(addTemporalCriteria_no_transaction_key
      [("transaction", BVal.obj [("all", BVal.bool true)]), ("a", BVal.int 2)]
      (removeField [("transaction", BVal.obj [("all", BVal.bool true)]),
        ("a", BVal.int 2)] "transaction")).1 (by rfl),
   (addTemporalCriteria_no_transaction_key [("transaction", BVal.int 9)] []).2
      rfl rfl rfl rfl rfl⟩

/-! ### C7 — `at` is `inrange` with coinciding bounds -/

/-- C7: for every timestamp value `t`, rewriting `{transaction: {at: t}}`
with `addTemporalCriteria` produces the same selector as rewriting
`{transaction: {inrange: [t, t]}}`. -/
theorem addTemporalCriteria_at_eq_inrange (s i : Nat) :
    addTemporalCriteria [("transaction", BVal.obj [("at", BVal.timestamp s i)])] =
      addTemporalCriteria [("transaction", BVal.obj
        [("inrange", BVal.arr [BVal.timestamp s i, BVal.timestamp s i])])] := rfl

/-! ### C5 — the `inrange` branch -/

theorem getField_append_some {b : BObj} {k : String} {v : BVal}
    (h : getField b k = some v) (l : BObj) : getField (b ++ l) k = some v := by
  induction b with
  | nil => simp [getField] at h
  | cons kv rest ih =>
      obtain ⟨k', w⟩ := kv
      rw [List.cons_append]
      rw [getField] at h ⊢
      by_cases hk : k' = k
      · rw [if_pos hk] at h ⊢
        exact h
      · rw [if_neg hk] at h ⊢
        exact ih h

theorem getField_appendElementsUnique_left {b : BObj} {n : String} {v : BVal}
    (h : getField b n = some v) (x : BObj) :
    getField (appendElementsUnique b x) n = some v := by
  unfold appendElementsUnique
  exact getField_append_some h _

/-- C5 counterexample: on the query
`{transaction: {inrange: [Timestamp(1,0), null]}, $or: [{x: 1}]}` the
rewrite's `$or` overwrites the query's own `$or` (appendElementsUnique skips
names already present), so the user's `$or: [{x: 1}]` condition is not
preserved in the output. -/
theorem addTemporalCriteria_c5_counterexample :
    addTemporalCriteria
        [("transaction", BVal.obj [("inrange", BVal.arr [BVal.timestamp 1 0, BVal.null])]),
         ("$or", BVal.arr [BVal.obj [("x", BVal.int 1)]])] =
      .ok [("$or", BVal.arr [BVal.obj [("transaction_end", BVal.null)],
        BVal.obj [("transaction_end", BVal.obj [("$gte", BVal.timestamp 1 0)])]])] ∧
    getField
        [("transaction", BVal.obj [("inrange", BVal.arr [BVal.timestamp 1 0, BVal.null])]),
         ("$or", BVal.arr [BVal.obj [("x", BVal.int 1)]])] "$or" =
      some (BVal.arr [BVal.obj [("x", BVal.int 1)]]) ∧
    getField [("$or", BVal.arr [BVal.obj [("transaction_end", BVal.null)],
        BVal.obj [("transaction_end", BVal.obj [("$gte", BVal.timestamp 1 0)])]])] "$or" ≠
      some (BVal.arr [BVal.obj [("x", BVal.int 1)]]) := by
  refine ⟨rfl, rfl, ?_⟩
  intro h
  simp [getField] at h

/-- C5 (amended): with the `inrange` branch reached (a `transaction` key is
present, no `transaction.current`, and `transaction.inrange` found), the
rewrite errors with 1234000/1234001/1234002 exactly when the operand is not
an array, not of length two, or has two null elements; otherwise it returns
the selector built from `(transaction_end ≥ a ∨ transaction_end = null)`
(when `a` is non-null) and `_id.transaction_start ≤ b` (when `b` is
non-null), each half omitted for a null bound, preserving every other query
condition except ones named `$or` or `_id.transaction_start` that collide
with an added criterion (those are dropped by `appendElementsUnique`). -/
theorem addTemporalCriteria_inrange_spec (q : BObj) (nm : String) (v : BVal)
    (h1 : hasElement q "transaction" = true)
    (h2 : getFieldDotted2 q "transaction.current" "transaction" "current" = none)
    (h3 : getFieldDotted2 q "transaction.inrange" "transaction" "inrange" = some (nm, v)) :
    ((∀ l, v ≠ BVal.arr l) → addTemporalCriteria q = .err 1234000) ∧
    (∀ l, v = BVal.arr l → l.length ≠ 2 → addTemporalCriteria q = .err 1234001) ∧
    (v = BVal.arr [BVal.null, BVal.null] → addTemporalCriteria q = .err 1234002) ∧
    (∀ a b, v = BVal.arr [a, b] → (a.isNull && b.isNull) = false →
      addTemporalCriteria q =
        .ok (removeField (appendElementsUnique (addFromCondition a ++ addToCondition b) q)
          "transaction") ∧
      (a.isNull = false →
        getField (removeField (appendElementsUnique
            (addFromCondition a ++ addToCondition b) q) "transaction") "$or" =
          some (BVal.arr [BVal.obj [("transaction_end", BVal.null)],
            BVal.obj [("transaction_end", BVal.obj [("$gte", a)])]])) ∧
      (b.isNull = false →
        getField (removeField (appendElementsUnique
            (addFromCondition a ++ addToCondition b) q) "transaction")
          "_id.transaction_start" = some (BVal.obj [("$lte", b)])) ∧
      (∀ k, k ≠ "transaction" →
        getField (addFromCondition a ++ addToCondition b) k = none →
        getField (removeField (appendElementsUnique
            (addFromCondition a ++ addToCondition b) q) "transaction") k =
          getField q k)) := by
  refine ⟨?_, ?_, ?_, ?_⟩
  · intro hna
    rcases v with _ | b' | n' | s' | ⟨ts1, ts2⟩ | d' | o' | elems | flds
    · simp [addTemporalCriteria, h1, h2, h3]
    · simp [addTemporalCriteria, h1, h2, h3]
    · simp [addTemporalCriteria, h1, h2, h3]
    · simp [addTemporalCriteria, h1, h2, h3]
    · simp [addTemporalCriteria, h1, h2, h3]
    · simp [addTemporalCriteria, h1, h2, h3]
    · simp [addTemporalCriteria, h1, h2, h3]
    · exact absurd rfl (hna elems)
    · simp [addTemporalCriteria, h1, h2, h3]
  · intro l hv hlen
    subst hv
    rcases l with _ | ⟨a, rest⟩
    · simp [addTemporalCriteria, h1, h2, h3]
    · rcases rest with _ | ⟨b, rest2⟩
      · simp [addTemporalCriteria, h1, h2, h3]
      · rcases rest2 with _ | ⟨c, rest3⟩
        · exact absurd rfl hlen
        · simp [addTemporalCriteria, h1, h2, h3]
  · intro hv
    subst hv
    simp [addTemporalCriteria, h1, h2, h3, BVal.isNull]
  · intro a b hv hnull
    subst hv
    refine ⟨?_, ?_, ?_, ?_⟩
    · simp [addTemporalCriteria, h1, h2, h3, hnull]
    · intro ha
      rw [getField_removeField_ne _ (by decide)]
      apply getField_appendElementsUnique_left
      simp [addFromCondition, ha, getField]
    · intro hb
      rw [getField_removeField_ne _ (by decide)]
      apply getField_appendElementsUnique_left
      by_cases ha : a.isNull = true
      · simp [addFromCondition, addToCondition, ha, hb, getField]
      · simp only [Bool.not_eq_true] at ha
        simp [addFromCondition, addToCondition, ha, hb, getField]
    · intro k hkt hkb
      rw [getField_removeField_ne _ hkt]
      unfold appendElementsUnique
      rw [getField_append_none hkb]
      exact getField_filter_of_name (fun w => by simp [hkb])

/-- Witness for C5 (amended) at a concrete two-timestamp range query. -/
theorem addTemporalCriteria_inrange_spec_witness :
    addTemporalCriteria [("transaction", BVal.obj [("inrange",
        BVal.arr [BVal.timestamp 1 0, BVal.timestamp 2 0])]), ("a", BVal.int 5)] =
      .ok (removeField (appendElementsUnique
        (addFromCondition (BVal.timestamp 1 0) ++ addToCondition (BVal.timestamp 2 0))
        [("transaction", BVal.obj [("inrange",
          BVal.arr [BVal.timestamp 1 0, BVal.timestamp 2 0])]), ("a", BVal.int 5)])
        "transaction") :=
  ((addTemporalCriteria_inrange_spec
      [("transaction", BVal.obj [("inrange",
        BVal.arr [BVal.timestamp 1 0, BVal.timestamp 2 0])]), ("a", BVal.int 5)]
      "inrange" (BVal.arr [BVal.timestamp 1 0, BVal.timestamp 2 0])
      rfl rfl rfl).2.2.2 (BVal.timestamp 1 0) (BVal.timestamp 2 0) rfl rfl).1

/-! ### C8 — `getTTLQuery` -/

/-- C8: `getTTLQuery` builds a two-disjunct `$or` in which both disjuncts
constrain the given field name, the first with a Date `$lt` bound of
`now_ms − 1000·ttl` and the second with a Timestamp `$tlt` bound of
`now_s − ttl` seconds (increment 0).  The hypotheses keep the unsigned
64/32-bit arithmetic of the source away from wraparound. -/
theorem getTTLQuery_spec (f : String) (nowMs nowSec expireField : Nat)
    (h1 : 1000 * expireField ≤ nowMs) (h2 : expireField ≤ nowSec)
    (h3 : nowMs < 2 ^ 64) (h4 : nowSec < 2 ^ 32) :
    getTTLQuery f nowMs nowSec expireField =
      [("$or", BVal.arr
        [ BVal.obj [(f, BVal.obj [("$lt", BVal.date (nowMs - 1000 * expireField))])],
          BVal.obj [(f, BVal.obj [("$tlt",
            BVal.timestamp (nowSec - expireField) 0)])] ])] := by
  have hp64 : ((2 : Int) ^ 64) = 18446744073709551616 := by norm_num
  have hp64n : ((2 : Nat) ^ 64) = 18446744073709551616 := by norm_num
  have hp32 : ((2 : Nat) ^ 32) = 4294967296 := by norm_num
  have h3' : nowMs < 18446744073709551616 := by rw [hp64n] at h3; exact h3
  have h4' : nowSec < 4294967296 := by rw [hp32] at h4; exact h4
  have hd : ttlDateBound nowMs expireField = nowMs - 1000 * expireField := by
    unfold ttlDateBound
    rw [hp64]
    omega
  have ht : (ttlTimestampMs nowSec expireField / 1000) % 2 ^ 32 = nowSec - expireField := by
    unfold ttlTimestampMs
    rw [hp64, hp32]
    rw [Int.emod_eq_of_lt (by omega) (by omega)]
    have hc : (1000 * ((nowSec : Int) - (expireField : Int))).toNat
        = 1000 * (nowSec - expireField) := by omega
    rw [hc, Nat.mul_div_cancel_left _ (by norm_num : 0 < 1000)]
    exact Nat.mod_eq_of_lt (by omega)
  unfold getTTLQuery appendTimestampValue
  rw [hd, ht]

/-- Witness for C8 at a concrete clock and TTL. -/
theorem getTTLQuery_spec_witness :
    getTTLQuery "f" 10000 10 3 =
      [("$or", BVal.arr
        [ BVal.obj [("f", BVal.obj [("$lt", BVal.date 7000)])],
          BVal.obj [("f", BVal.obj [("$tlt", BVal.timestamp 7 0)])] ])] :=
  getTTLQuery_spec "f" 10000 10 3 (by norm_num) (by norm_num) (by norm_num) (by norm_num)

/-! ### C1 — chain continuity in the update executor -/

/-- The matched current version record of the operator-update path
(update.cpp:372-404) after `setTransactionEndTimestamp` stamped
`transaction_end = Timestamp(5,1)`: the closed predecessor. -/
def prevClosedRecord : BObj :=
  [("_id", BVal.obj [("_id", BVal.int 7), ("transaction_start", BVal.timestamp 3 1)]),
   ("transaction_end", BVal.timestamp 5 1),
   ("a", BVal.int 0)]

/-- `mss->createNewFromMods()` (update.cpp:377) for a `{$inc: {a: 1}}`
update of the same on-disk record: the modifiers leave the composite `_id`
(still carrying the predecessor's `transaction_start = Timestamp(3,1)`) and
the null `transaction_end` unchanged.  This is the document the executor
inserts at update.cpp:397: the value returned by
`setTransactionStartTimestamp(newObj)` at update.cpp:394 is discarded (and
the call passes one argument where ttime.h declares two). -/
def newObjFromMods : BObj :=
  [("_id", BVal.obj [("_id", BVal.int 7), ("transaction_start", BVal.timestamp 3 1)]),
   ("transaction_end", BVal.null),
   ("a", BVal.int 1)]

/-- C1 evaluated at the failing input: `succeed` (the two-argument
`setTransactionStartTimestamp` of ttime.cpp) would return a successor whose
`_id.transaction_start` equals the predecessor's `transaction_end`
Timestamp(5,1) — but the executor discards that result and inserts
`newObjFromMods` unchanged, whose `_id.transaction_start` is the
predecessor's `transaction_start` Timestamp(3,1), not Timestamp(5,1):
the inserted successor violates the claimed chain continuity. -/
theorem updateExecutor_discards_succeed_result :
    setTransactionStartTimestamp (100, 0) 42 newObjFromMods prevClosedRecord =
      .ok [("_id", BVal.obj [("_id", BVal.int 7),
              ("transaction_start", BVal.timestamp 5 1)]),
           ("transaction_end", BVal.null),
           ("a", BVal.int 1)] ∧
    getFieldDotted2
        [("_id", BVal.obj [("_id", BVal.int 7),
            ("transaction_start", BVal.timestamp 5 1)]),
         ("transaction_end", BVal.null),
         ("a", BVal.int 1)]
        "_id.transaction_start" "_id" "transaction_start" =
      some ("transaction_start", BVal.timestamp 5 1) ∧
    getFieldDotted2 newObjFromMods "_id.transaction_start" "_id" "transaction_start" =
      some ("transaction_start", BVal.timestamp 3 1) ∧
    getFieldDottedFlat prevClosedRecord "transaction_end" =
      some ("transaction_end", BVal.timestamp 5 1) ∧
    BVal.timestamp 3 1 ≠ BVal.timestamp 5 1 := by
  refine ⟨rfl, rfl, rfl, rfl, ?_⟩
  intro h
  simp at h
